import Mathlib

/-!
# Verification of the Raft `server` contract (scylla, `raft/server.hh`)

The repository ships the public header of a Raft consensus participant:
`raft::server` with `add_entry`, `set_configuration`, `read_barrier`,
`stepdown`, `start`/`abort`, together with the nested
`server::configuration` options struct whose default member initializers
are given in the header itself.

The options struct is embedded directly from the source.  The behaviour of
the member functions is declared in the header (pure virtual) but the
implementation is not part of the source tree, so the operational model of
the server loop below is modelled from the specification's words (each
such definition says so in its doc comment).
-/

namespace Raft

/-- Embedded from `src`: the nested `server::configuration` struct with the
default member initializers written in the header. -/
structure ServerConfiguration where
  snapshot_threshold : Nat := 1024
  snapshot_trailing : Nat := 200
  append_request_threshold : Nat := 100000
  max_log_size : Nat := 5000
  enable_prevoting : Bool := true
deriving DecidableEq, Repr

/-- A default-constructed `server::configuration`: every field takes its
default member initializer. -/
def defaultConfiguration : ServerConfiguration := {}

/-- `enum class wait_type { committed, applied }` from the header. -/
inductive WaitType
  | committed
  | applied
deriving DecidableEq, Repr

/-- The error kinds of the contract (spec section 7): `not_a_leader`,
`dropped_entry`, `commit_status_unknown`, `conf_change_in_progress`,
`timeout_error`, `stopped`. -/
inductive RaftError
  | notALeader
  | droppedEntry
  | commitStatusUnknown
  | confChangeInProgress
  | timeoutError
  | stopped
deriving DecidableEq, Repr

/-- Roles of the participant (spec section 3). -/
inductive Role
  | follower
  | candidate
  | preCandidate
  | leader
deriving DecidableEq, Repr

/-- Log entry payload variants (spec section 3): an opaque command, a full
membership configuration, or a dummy entry. -/
inductive Payload
  | command (data : Nat)
  | configuration (members : List Nat)
  | dummy
deriving DecidableEq, Repr

/-- A log entry: `term`, `index` and a payload (spec section 3). -/
structure LogEntry where
  term : Nat
  index : Nat
  payload : Payload
deriving DecidableEq, Repr

/-- State of a client promise registered by the server loop. -/
inductive PromiseState
  | pending
  | resolvedOk
  | failed (e : RaftError)
deriving DecidableEq, Repr

/-- A pending `add_entry` promise, keyed by `(term, index)` with the
requested `wait_type` (spec section 4.2). -/
structure Waiter where
  term : Nat
  index : Nat
  wtype : WaitType
  state : PromiseState
deriving DecidableEq, Repr

/-- Volatile per-follower leader bookkeeping (spec section 3): the match
index and whether the follower is a voting member. -/
structure FollowerProgress where
  id : Nat
  matchIndex : Nat
  voting : Bool
deriving DecidableEq, Repr

/-- Modelled from the spec: the server-loop state visible to the client
contract — role, current term, the in-memory log, `commit_index`,
`last_applied`, the registered promises, the current configuration, the
in-flight membership change, and lifecycle flags.  The implementation of
`raft::server` is not in the source tree; this state is assembled from
spec sections 3 and 4.2. -/
structure ServerState where
  role : Role
  currentTerm : Nat
  log : List LogEntry
  commitIndex : Nat
  lastApplied : Nat
  waiters : List Waiter
  currentConfig : List Nat
  /-- `some cNew` while a `set_configuration(cNew)` call is in flight. -/
  pendingCNew : Option (List Nat)
  /-- the caller promise of the in-flight `set_configuration`, if any. -/
  confPromise : Option PromiseState
  /-- set by `stepdown` while the leader stops accepting new entries. -/
  steppingDown : Bool
  aborted : Bool
  /-- volatile leader bookkeeping, one record per follower. -/
  trackers : List FollowerProgress
deriving DecidableEq, Repr

/-- Index of the last log entry; the log holds indices `1 .. length`. -/
def lastIndex (s : ServerState) : Nat := s.log.length

/-- The term of the entry stored at index `i` (1-based), if any. -/
def entryTermAt (log : List LogEntry) (i : Nat) : Option Nat :=
  (log[i - 1]?).map LogEntry.term

/-- Modelled from the spec: `server::add_entry(command, wait_type)`.  After
`abort` every call fails with a stopped error; the call must be made on a
leader, else it fails with `not_a_leader`; a leader that is stepping down
has stopped accepting new entries.  Otherwise the command entry is
appended at the next index in the current term and a promise keyed by
`(term, index)` is registered with the requested wait type.  The returned
`Except` is the immediate accept/reject verdict; an accepted call's
eventual outcome is the registered promise. -/
def addEntry (s : ServerState) (cmd : Nat) (wt : WaitType) :
    ServerState × Except RaftError (Nat × Nat) :=
  if s.aborted then (s, .error .stopped)
  else if s.role ≠ .leader then (s, .error .notALeader)
  else if s.steppingDown then (s, .error .notALeader)
  else
    let idx := lastIndex s + 1
    ({ s with
        log := s.log ++ [⟨s.currentTerm, idx, .command cmd⟩],
        waiters := s.waiters ++ [⟨s.currentTerm, idx, wt, .pending⟩] },
      .ok (s.currentTerm, idx))

/-- Modelled from the spec: `server::set_configuration(c_new)`.  Fails
with a stopped error after `abort`, with `not_a_leader` off the leader,
and with `conf_change_in_progress` while an earlier membership change has
not finalized.  If the new configuration is identical to the current one
it does nothing.  Otherwise the joint configuration `C_old ∪ C_new` is
appended (taking effect the moment it is appended) and the caller promise
is registered. -/
def setConfiguration (s : ServerState) (cNew : List Nat) :
    ServerState × Except RaftError Unit :=
  if s.aborted then (s, .error .stopped)
  else if s.role ≠ .leader then (s, .error .notALeader)
  else if s.pendingCNew.isSome then (s, .error .confChangeInProgress)
  else if cNew = s.currentConfig then (s, .ok ())
  else
    let joint := s.currentConfig.union cNew
    ({ s with
        log := s.log ++ [⟨s.currentTerm, lastIndex s + 1, .configuration joint⟩],
        currentConfig := joint,
        pendingCNew := some cNew,
        confPromise := some .pending }, .ok ())

/-- Modelled from the spec: resolution of one promise when `commit_index`
reaches `n`.  A pending `committed`-promise whose index is covered
resolves successfully when the entry at that index still carries the
promise's term, and fails with `dropped_entry` when the slot was
overwritten by a different term. -/
def commitResolve (log : List LogEntry) (n : Nat) (w : Waiter) : Waiter :=
  if w.state = .pending ∧ w.wtype = .committed ∧ w.index ≤ n then
    if entryTermAt log w.index = some w.term then { w with state := .resolvedOk }
    else { w with state := .failed .droppedEntry }
  else w

/-- Modelled from the spec: the server loop advances `commit_index`
monotonically (never past the end of the log) and resolves the
`committed`-promises the new commit index covers. -/
def advanceCommit (s : ServerState) (n : Nat) : ServerState :=
  if s.commitIndex ≤ n ∧ n ≤ lastIndex s then
    { s with commitIndex := n, waiters := s.waiters.map (commitResolve s.log n) }
  else s

/-- Modelled from the spec: resolution of one promise when `last_applied`
reaches `n`: a pending `applied`-promise whose entry has been applied
resolves successfully (or fails with `dropped_entry` if its slot carries
a different term). -/
def applyResolve (log : List LogEntry) (n : Nat) (w : Waiter) : Waiter :=
  if w.state = .pending ∧ w.wtype = .applied ∧ w.index ≤ n then
    if entryTermAt log w.index = some w.term then { w with state := .resolvedOk }
    else { w with state := .failed .droppedEntry }
  else w

/-- Modelled from the spec: the state machine applies entries strictly in
index order and only committed entries, so `last_applied` advances
monotonically but never past `commit_index`; `applied`-promises covered
by the new `last_applied` are resolved. -/
def applyUpTo (s : ServerState) (n : Nat) : ServerState :=
  if s.lastApplied ≤ n ∧ n ≤ s.commitIndex then
    { s with lastApplied := n, waiters := s.waiters.map (applyResolve s.log n) }
  else s

/-- Modelled from the spec: a pending promise whose log slot now carries an
entry with a different term (the slot was overwritten by a new leader)
fails with `dropped_entry`. -/
def dropResolve (log : List LogEntry) (w : Waiter) : Waiter :=
  match entryTermAt log w.index with
  | some t =>
      if w.state = .pending ∧ t ≠ w.term then { w with state := .failed .droppedEntry }
      else w
  | none => w

/-- Modelled from the spec: a new leader's append truncates the conflicting
uncommitted suffix starting at `i` and appends its own entries; promises
whose slot now holds a different term fail with `dropped_entry`.
Truncation is permitted only above `commit_index`. -/
def overwriteSuffix (s : ServerState) (i : Nat) (entries : List LogEntry) : ServerState :=
  if s.commitIndex < i ∧ i ≤ lastIndex s + 1 then
    let newLog := s.log.take (i - 1) ++ entries
    { s with log := newLog, waiters := s.waiters.map (dropResolve newLog) }
  else s

/-- Modelled from the spec: when the server loses track of an entry's fate
(it steps down with the entry in flight, i.e. not yet committed), the
promise fails with `commit_status_unknown`.  Promises for entries already
committed keep their fate. -/
def trackLostResolve (ci : Nat) (w : Waiter) : Waiter :=
  if w.state = .pending ∧ ci < w.index then { w with state := .failed .commitStatusUnknown }
  else w

/-- Modelled from the spec: the server steps down to follower while client
promises are in flight and loses track of the uncommitted ones; an
unfinished `set_configuration` caller promise also fails with
`commit_status_unknown`. -/
def loseTrack (s : ServerState) : ServerState :=
  { s with
      role := .follower,
      steppingDown := false,
      waiters := s.waiters.map (trackLostResolve s.commitIndex),
      confPromise :=
        if s.confPromise = some .pending then some (.failed .commitStatusUnknown)
        else s.confPromise,
      pendingCNew := none }

/-- Modelled from the spec: a pending promise cancelled by `abort` fails
with `commit_status_unknown`. -/
def unknownResolve (w : Waiter) : Waiter :=
  if w.state = .pending then { w with state := .failed .commitStatusUnknown }
  else w

/-- Modelled from the spec: `server::abort()` stops the server, fails every
pending promise (including an unfinished `set_configuration` caller
promise) with `commit_status_unknown`, and relinquishes leadership.
Further calls fail with a stopped error. -/
def abort (s : ServerState) : ServerState :=
  { s with
      aborted := true,
      role := .follower,
      steppingDown := false,
      waiters := s.waiters.map unknownResolve,
      confPromise :=
        if s.confPromise = some .pending then some (.failed .commitStatusUnknown)
        else s.confPromise }

/-- Modelled from the spec: once the joint configuration entry commits, the
leader appends a second configuration entry containing `C_new` only. -/
def appendCNewEntry (s : ServerState) : ServerState :=
  match s.pendingCNew with
  | some cNew =>
      { s with
          log := s.log ++ [⟨s.currentTerm, lastIndex s + 1, .configuration cNew⟩],
          currentConfig := cNew }
  | none => s

/-- Modelled from the spec: after `C_new` the leader appends a trailing
dummy entry so the caller observes a concrete commit-time signal. -/
def appendConfDummy (s : ServerState) : ServerState :=
  { s with log := s.log ++ [⟨s.currentTerm, lastIndex s + 1, .dummy⟩] }

/-- Modelled from the spec: the `set_configuration` caller promise resolves
once the trailing dummy entry has committed. -/
def resolveConfPromise (s : ServerState) (dummyIndex : Nat) : ServerState :=
  if dummyIndex ≤ s.commitIndex ∧ s.confPromise = some .pending then
    { s with confPromise := some .resolvedOk, pendingCNew := none }
  else s

/-- Messages a stepping-down leader emits: replication of outstanding
entries to lagging followers and a `timeout_now` to the chosen one. -/
inductive StepdownOutput
  | replicate (id : Nat)
  | timeoutNow (id : Nat)
deriving DecidableEq, Repr

/-- Keep the better of a candidate tracker and the best-so-far: a voting
tracker with strictly larger `match_index` replaces the best-so-far. -/
def betterVoting (t : FollowerProgress) : Option FollowerProgress → Option FollowerProgress
  | none => if t.voting = true then some t else none
  | some b => if t.voting = true ∧ b.matchIndex < t.matchIndex then some t else some b

/-- Modelled from the spec: the most up-to-date voting follower — a voting
tracker whose `match_index` is maximal among voting trackers. -/
def bestVoting : List FollowerProgress → Option FollowerProgress
  | [] => none
  | t :: ts => betterVoting t (bestVoting ts)

/-- Modelled from the spec: `server::stepdown(timeout)`.  Fails with a
stopped error after `abort` and with `not_a_leader` off the leader.  On a
leader it stops accepting new entries, attempts to replicate outstanding
entries to the followers behind the end of the log, and sends
`timeout_now` to the most up-to-date voting follower. -/
def stepdown (s : ServerState) : ServerState × Except RaftError (List StepdownOutput) :=
  if s.aborted then (s, .error .stopped)
  else if s.role ≠ .leader then (s, .error .notALeader)
  else
    let lagging := s.trackers.filter (fun t => t.matchIndex < lastIndex s)
    let sends := lagging.map (fun t => StepdownOutput.replicate t.id)
    let outs :=
      match bestVoting s.trackers with
      | some t => sends ++ [StepdownOutput.timeoutNow t.id]
      | none => sends
    ({ s with steppingDown := true }, .ok outs)

/-- Modelled from the spec: a stepping-down leader transitions to follower
on receipt of a higher-term append; if that has not happened when the
timeout expires, the call fails with `timeout_error`.  `transitioned`
records whether the transition happened within the timeout. -/
def stepdownFinish (s : ServerState) (transitioned : Bool) :
    ServerState × Except RaftError Unit :=
  if transitioned then (loseTrack s, .ok ())
  else (s, .error .timeoutError)

/-- Modelled from the spec: `server::read_barrier()` on a leader captures
`commit_index` at call time; a follower call is redirected with
`not_a_leader`; a stopped server fails with a stopped error. -/
def readBarrier (s : ServerState) : ServerState × Except RaftError Nat :=
  if s.aborted then (s, .error .stopped)
  else if s.role ≠ .leader then (s, .error .notALeader)
  else (s, .ok s.commitIndex)

/-- Modelled from the spec: the read barrier resolves once a quorum of the
cluster has acknowledged a heartbeat round issued at-or-after the call
and `last_applied` has reached the captured `commit_index`. -/
def readBarrierResolves (captured acks clusterSize : Nat) (s : ServerState) : Bool :=
  decide (clusterSize < 2 * acks) && decide (captured ≤ s.lastApplied)

/-- The entries applied to the local state machine: the log up to
`last_applied` (entries are applied strictly in index order). -/
def appliedEntries (s : ServerState) : List LogEntry :=
  s.log.take s.lastApplied

/-- The entries committed in state `s`: the log up to `commit_index`. -/
def committedEntries (s : ServerState) : List LogEntry :=
  s.log.take s.commitIndex

/-- A concrete running follower, used to exercise the contract. -/
def followerState : ServerState where
  role := .follower
  currentTerm := 1
  log := []
  commitIndex := 0
  lastApplied := 0
  waiters := []
  currentConfig := [1, 2]
  pendingCNew := none
  confPromise := none
  steppingDown := false
  aborted := false
  trackers := []

/-- A concrete running leader with one committed dummy entry at its own
term and two voting followers, used to exercise the contract. -/
def leaderState : ServerState where
  role := .leader
  currentTerm := 2
  log := [⟨2, 1, .dummy⟩]
  commitIndex := 1
  lastApplied := 1
  waiters := []
  currentConfig := [1, 2, 3]
  pendingCNew := none
  confPromise := none
  steppingDown := false
  aborted := false
  trackers := [⟨2, 1, true⟩, ⟨3, 0, true⟩]

/-- The leader while an earlier membership change has not finalized. -/
def confChangingState : ServerState :=
  { leaderState with pendingCNew := some [1, 2, 3, 4], confPromise := some .pending }

/-- Claim C9: a default-constructed `server::configuration` has
`snapshot_threshold = 1024`, `snapshot_trailing = 200`,
`append_request_threshold = 100000` bytes, `max_log_size = 5000` entries
and `enable_prevoting = true`; in particular the default `max_log_size`
exceeds the default `snapshot_trailing`. -/
theorem default_configuration_values :
    defaultConfiguration.snapshot_threshold = 1024 ∧
    defaultConfiguration.snapshot_trailing = 200 ∧
    defaultConfiguration.append_request_threshold = 100000 ∧
    defaultConfiguration.max_log_size = 5000 ∧
    defaultConfiguration.enable_prevoting = true ∧
    defaultConfiguration.snapshot_trailing < defaultConfiguration.max_log_size := by
  decide

/-- Claim C1: `add_entry` on a running server that is not the leader fails
with `not_a_leader` and appends no entry to the log. -/
theorem add_entry_not_leader (s : ServerState) (cmd : Nat) (wt : WaitType)
    (hrun : s.aborted = false) (hrole : s.role ≠ .leader) :
    (addEntry s cmd wt).2 = .error .notALeader ∧
    (addEntry s cmd wt).1.log = s.log := by
  simp [addEntry, hrun, hrole]

/-- Witness for C1: on a concrete follower, `add_entry` fails with
`not_a_leader` and the log stays empty. -/
theorem add_entry_not_leader_witness :
    (addEntry followerState 7 .committed).2 = .error .notALeader ∧
    (addEntry followerState 7 .committed).1.log = followerState.log :=
  add_entry_not_leader followerState 7 .committed rfl (by decide)

/-- Claim C5: on a running server, `set_configuration` fails with
`conf_change_in_progress` while an earlier membership change has not
finalized — leaving the state (and hence the pending change) untouched —
and fails with `not_a_leader` off the leader. -/
theorem set_configuration_guards (s : ServerState) (c : List Nat)
    (hrun : s.aborted = false) :
    (s.role = .leader → s.pendingCNew.isSome = true →
      setConfiguration s c = (s, .error .confChangeInProgress)) ∧
    (s.role ≠ .leader → setConfiguration s c = (s, .error .notALeader)) := by
  constructor
  · intro hl hp
    simp [setConfiguration, hrun, hl, hp]
  · intro hr
    simp [setConfiguration, hrun, hr]

/-- Witness for C5: on a concrete leader with a membership change in
flight, `set_configuration` fails with `conf_change_in_progress` and the
state is unchanged. -/
theorem set_configuration_guards_witness :
    setConfiguration confChangingState [1, 2] =
      (confChangingState, .error .confChangeInProgress) :=
  (set_configuration_guards confChangingState [1, 2] rfl).1 rfl rfl

/-- Counterexample to claim C10 as stated: a call with a configuration
identical to the current one made on a follower does not succeed — it
fails with `not_a_leader`, because `set_configuration` may only be called
on a leader. -/
theorem set_configuration_identical_follower_fails :
    followerState.currentConfig = [1, 2] ∧
    (setConfiguration followerState [1, 2]).2 = .error .notALeader :=
  ⟨rfl, rfl⟩

/-- Claim C10 (amended): on a running leader with no membership change in
flight, `set_configuration` with a configuration identical to the current
one succeeds without appending any entry and leaves the state
unchanged. -/
theorem set_configuration_identical_noop (s : ServerState) (c : List Nat)
    (hrun : s.aborted = false) (hl : s.role = .leader)
    (hnc : s.pendingCNew = none) (heq : c = s.currentConfig) :
    setConfiguration s c = (s, .ok ()) := by
  simp [setConfiguration, hrun, hl, hnc, heq]

/-- Witness for C10 (amended): a concrete leader, identical configuration:
the call succeeds and returns the state unchanged. -/
theorem set_configuration_identical_noop_witness :
    setConfiguration leaderState [1, 2, 3] = (leaderState, .ok ()) :=
  set_configuration_identical_noop leaderState [1, 2, 3] rfl rfl rfl rfl

/-- Claim C2: an accepted `add_entry` promise resolves exactly when its
entry reaches the state named by `wait_type`.  Advancing `commit_index`
to `n` resolves a pending `committed`-promise successfully precisely when
the entry is committed at the same `(term, index)` — and touches no
`applied`-promise; advancing `last_applied` to `m` (which the apply step
only does after commit, `m ≤ commit_index`) resolves a pending
`applied`-promise precisely when its entry has been applied with the same
`(term, index)` — and touches no `committed`-promise; `last_applied`
never passes `commit_index`, so applying happens after commit. -/
theorem add_entry_wait_type_resolution (s : ServerState) (n m : Nat) (w : Waiter)
    (hn : s.commitIndex ≤ n ∧ n ≤ lastIndex s)
    (hm : s.lastApplied ≤ m ∧ m ≤ s.commitIndex)
    (hw : w.state = .pending) :
    ((advanceCommit s n).waiters = s.waiters.map (commitResolve s.log n) ∧
      (w.wtype = .committed →
        ((commitResolve s.log n w).state = .resolvedOk ↔
          w.index ≤ n ∧ entryTermAt s.log w.index = some w.term)) ∧
      (w.wtype = .applied → commitResolve s.log n w = w)) ∧
    ((applyUpTo s m).waiters = s.waiters.map (applyResolve s.log m) ∧
      (w.wtype = .applied →
        ((applyResolve s.log m w).state = .resolvedOk ↔
          w.index ≤ m ∧ entryTermAt s.log w.index = some w.term)) ∧
      (w.wtype = .committed → applyResolve s.log m w = w) ∧
      (applyUpTo s m).lastApplied ≤ (applyUpTo s m).commitIndex) := by
  refine ⟨⟨?_, ?_, ?_⟩, ?_, ?_, ?_, ?_⟩
  · simp [advanceCommit, hn.1, hn.2]
  · intro hc
    by_cases hidx : w.index ≤ n
    · by_cases hterm : entryTermAt s.log w.index = some w.term
      · simp [commitResolve, hw, hc, hidx, hterm]
      · simp [commitResolve, hw, hc, hidx, hterm]
    · simp [commitResolve, hw, hidx]
  · intro ha
    simp [commitResolve, ha]
  · simp [applyUpTo, hm.1, hm.2]
  · intro ha
    by_cases hidx : w.index ≤ m
    · by_cases hterm : entryTermAt s.log w.index = some w.term
      · simp [applyResolve, hw, ha, hidx, hterm]
      · simp [applyResolve, hw, ha, hidx, hterm]
    · simp [applyResolve, hw, hidx]
  · intro hc
    simp [applyResolve, hc]
  · simp [applyUpTo, hm.1, hm.2]

/-- Witness for C2: a concrete leader accepts an entry; committing index 2
resolves the `committed`-promise successfully, and the apply step keeps
`last_applied` within `commit_index`. -/
theorem add_entry_wait_type_resolution_witness :
    (advanceCommit (addEntry leaderState 7 .committed).1 2).waiters =
      ((addEntry leaderState 7 .committed).1.waiters.map
        (commitResolve (addEntry leaderState 7 .committed).1.log 2)) ∧
    (commitResolve (addEntry leaderState 7 .committed).1.log 2
        ⟨2, 2, .committed, .pending⟩).state = .resolvedOk := by
  have h := add_entry_wait_type_resolution (addEntry leaderState 7 .committed).1 2 1
      ⟨2, 2, .committed, .pending⟩ (by decide) (by decide) rfl
  exact ⟨h.1.1, (h.1.2.1 rfl).mpr (by decide)⟩

/-- Claim C3: a pending promise fails with `dropped_entry` when another
leader overwrites its log slot with a different term at the same index,
and fails with `commit_status_unknown` when the server loses track of the
entry's fate (steps down with the entry in flight, i.e. not yet
committed). -/
theorem pending_promise_fate (s : ServerState) (i : Nat) (es : List LogEntry)
    (w : Waiter) (t : Nat) (hw : w.state = .pending)
    (hg : s.commitIndex < i ∧ i ≤ lastIndex s + 1) :
    ((overwriteSuffix s i es).waiters =
        s.waiters.map (dropResolve (s.log.take (i - 1) ++ es)) ∧
      (entryTermAt (s.log.take (i - 1) ++ es) w.index = some t → t ≠ w.term →
        (dropResolve (s.log.take (i - 1) ++ es) w).state = .failed .droppedEntry)) ∧
    ((loseTrack s).waiters = s.waiters.map (trackLostResolve s.commitIndex) ∧
      (s.commitIndex < w.index →
        (trackLostResolve s.commitIndex w).state = .failed .commitStatusUnknown)) := by
  refine ⟨⟨?_, ?_⟩, ?_, ?_⟩
  · simp [overwriteSuffix, hg.1, hg.2]
  · intro ht hne
    simp [dropResolve, ht, hw, hne]
  · simp [loseTrack]
  · intro hi
    simp [trackLostResolve, hw, hi]

/-- Witness for C3: a concrete leader appends an entry at index 2 in term
2; a new leader overwrites index 2 with a term-3 entry and the promise
fails with `dropped_entry`; alternatively the server steps down with the
entry in flight and the promise fails with `commit_status_unknown`. -/
theorem pending_promise_fate_witness :
    (dropResolve ((addEntry leaderState 7 .committed).1.log.take 1 ++ [⟨3, 2, .dummy⟩])
        ⟨2, 2, .committed, .pending⟩).state = .failed .droppedEntry ∧
    (trackLostResolve (addEntry leaderState 7 .committed).1.commitIndex
        ⟨2, 2, .committed, .pending⟩).state = .failed .commitStatusUnknown := by
  have h := pending_promise_fate (addEntry leaderState 7 .committed).1 2 [⟨3, 2, .dummy⟩]
      ⟨2, 2, .committed, .pending⟩ 3 rfl (by decide)
  exact ⟨h.1.2 (by decide) (by decide), h.2.2 (by decide)⟩

/-- Claim C7: `abort()` fails every pending promise (including the caller
promise of an unfinished `set_configuration`) with
`commit_status_unknown`, and every server call made after `abort()` fails
with a stopped error. -/
theorem abort_contract (s : ServerState) (w : Waiter)
    (hw : w ∈ s.waiters) (hp : w.state = .pending) :
    (abort s).waiters = s.waiters.map unknownResolve ∧
    (unknownResolve w).state = .failed .commitStatusUnknown ∧
    (s.confPromise = some .pending →
      (abort s).confPromise = some (.failed .commitStatusUnknown)) ∧
    (∀ cmd wt, addEntry (abort s) cmd wt = (abort s, .error .stopped)) ∧
    (∀ c, setConfiguration (abort s) c = (abort s, .error .stopped)) ∧
    readBarrier (abort s) = (abort s, .error .stopped) ∧
    (stepdown (abort s)).2 = .error .stopped := by
  refine ⟨rfl, by simp [unknownResolve, hp], ?_, ?_, ?_, ?_, ?_⟩
  · intro hcp
    simp [abort, hcp]
  · intro cmd wt
    simp [addEntry, abort]
  · intro c
    simp [setConfiguration, abort]
  · simp [readBarrier, abort]
  · simp [stepdown, abort]

/-- Witness for C7: aborting a leader with a pending promise fails it with
`commit_status_unknown` and a subsequent `add_entry` fails with a stopped
error. -/
theorem abort_contract_witness :
    (unknownResolve ⟨2, 2, .committed, .pending⟩).state =
      .failed .commitStatusUnknown ∧
    (addEntry (abort (addEntry leaderState 7 .committed).1) 8 .applied).2 =
      .error .stopped := by
  have h := abort_contract (addEntry leaderState 7 .committed).1
      ⟨2, 2, .committed, .pending⟩ (by decide) rfl
  exact ⟨h.2.1, by rw [(h.2.2.2.1 8 .applied)]⟩

lemma bestVoting_eq_none (ts : List FollowerProgress) (h : bestVoting ts = none) :
    ∀ u ∈ ts, u.voting = false := by
  induction ts with
  | nil => simp
  | cons a as ih =>
    intro u hu
    cases hb : bestVoting as with
    | none =>
      rw [bestVoting, hb] at h
      by_cases hv : a.voting = true
      · simp [betterVoting, hv] at h
      · rcases List.mem_cons.mp hu with h1 | h2
        · rw [h1]
          simpa using hv
        · exact ih hb u h2
    | some b =>
      rw [bestVoting, hb] at h
      by_cases hc : a.voting = true ∧ b.matchIndex < a.matchIndex
      · simp [betterVoting, hc] at h
      · simp [betterVoting, hc] at h

lemma bestVoting_spec (ts : List FollowerProgress) (t : FollowerProgress)
    (h : bestVoting ts = some t) :
    t ∈ ts ∧ t.voting = true ∧
      ∀ u ∈ ts, u.voting = true → u.matchIndex ≤ t.matchIndex := by
  induction ts generalizing t with
  | nil => simp [bestVoting] at h
  | cons a as ih =>
    cases hb : bestVoting as with
    | none =>
      rw [bestVoting, hb] at h
      by_cases hv : a.voting = true
      · obtain rfl : a = t := by simpa [betterVoting, hv] using h
        refine ⟨List.mem_cons_self a as, hv, ?_⟩
        intro u hu huv
        rcases List.mem_cons.mp hu with h1 | h2
        · rw [h1]
        · exact absurd (bestVoting_eq_none as hb u h2) (by simp [huv])
      · simp [betterVoting, hv] at h
    | some b =>
      rw [bestVoting, hb] at h
      obtain ⟨hbmem, hbv, hbmax⟩ := ih b hb
      by_cases hc : a.voting = true ∧ b.matchIndex < a.matchIndex
      · obtain rfl : a = t := by simpa [betterVoting, hc] using h
        refine ⟨List.mem_cons_self a as, hc.1, ?_⟩
        intro u hu huv
        rcases List.mem_cons.mp hu with h1 | h2
        · rw [h1]
        · exact le_trans (hbmax u h2 huv) (le_of_lt hc.2)
      · obtain rfl : b = t := by simpa [betterVoting, hc] using h
        refine ⟨List.mem_cons_of_mem a hbmem, hbv, ?_⟩
        intro u hu huv
        rcases List.mem_cons.mp hu with h1 | h2
        · by_cases hav : a.voting = true
          · have hnlt : ¬ b.matchIndex < a.matchIndex := fun hlt => hc ⟨hav, hlt⟩
            rw [h1]
            omega
          · rw [h1] at huv
            exact absurd huv hav
        · exact hbmax u h2 huv

lemma bestVoting_isSome_of_voting (ts : List FollowerProgress)
    (u : FollowerProgress) (hu : u ∈ ts) (hv : u.voting = true) :
    ∃ t, bestVoting ts = some t := by
  cases h : bestVoting ts with
  | some t => exact ⟨t, rfl⟩
  | none => exact absurd (bestVoting_eq_none ts h u hu) (by simp [hv])

/-- Claim C6: `stepdown(timeout)` on a running non-leader fails with
`not_a_leader`.  On a leader it stops accepting new entries (a subsequent
`add_entry` is refused), emits a replication send for every follower with
outstanding entries and a `timeout_now` to the most up-to-date voting
follower (one whose `match_index` is maximal among voting followers), and
then transitions to follower; if the transition has not happened when the
timeout expires, the call fails with `timeout_error`. -/
theorem stepdown_contract (s : ServerState) (hrun : s.aborted = false) :
    (s.role ≠ .leader → stepdown s = (s, .error .notALeader)) ∧
    (s.role = .leader →
      (stepdown s).1 = { s with steppingDown := true } ∧
      (∀ cmd wt, (addEntry (stepdown s).1 cmd wt).2 = .error .notALeader) ∧
      (∃ outs, (stepdown s).2 = .ok outs ∧
        (∀ tr ∈ s.trackers, tr.matchIndex < lastIndex s →
          StepdownOutput.replicate tr.id ∈ outs) ∧
        (∀ u ∈ s.trackers, u.voting = true →
          ∃ t, StepdownOutput.timeoutNow t.id ∈ outs ∧
            t ∈ s.trackers ∧ t.voting = true ∧
            ∀ v ∈ s.trackers, v.voting = true → v.matchIndex ≤ t.matchIndex)) ∧
      stepdownFinish (stepdown s).1 false =
        ((stepdown s).1, .error .timeoutError) ∧
      (stepdownFinish (stepdown s).1 true).1.role = .follower) := by
  constructor
  · intro hr
    simp [stepdown, hrun, hr]
  · intro hl
    have hfst : (stepdown s).1 = { s with steppingDown := true } := by
      cases hb : bestVoting s.trackers <;> simp [stepdown, hrun, hl, hb]
    refine ⟨hfst, ?_, ?_, by simp [stepdownFinish], by simp [stepdownFinish, loseTrack]⟩
    · intro cmd wt
      rw [hfst]
      simp [addEntry, hrun, hl]
    · cases hb : bestVoting s.trackers with
      | none =>
        refine ⟨(s.trackers.filter (fun t => t.matchIndex < lastIndex s)).map
            (fun t => StepdownOutput.replicate t.id), by simp [stepdown, hrun, hl, hb], ?_, ?_⟩
        · intro tr htr hlag
          exact List.mem_map_of_mem _ (List.mem_filter.mpr ⟨htr, by simpa using hlag⟩)
        · intro u hu huv
          obtain ⟨t, ht⟩ := bestVoting_isSome_of_voting s.trackers u hu huv
          rw [ht] at hb
          exact absurd hb (by simp)
      | some t =>
        refine ⟨(s.trackers.filter (fun t => t.matchIndex < lastIndex s)).map
              (fun t => StepdownOutput.replicate t.id) ++ [StepdownOutput.timeoutNow t.id],
            by simp [stepdown, hrun, hl, hb], ?_, ?_⟩
        · intro tr htr hlag
          exact List.mem_append_left _
            (List.mem_map_of_mem _ (List.mem_filter.mpr ⟨htr, by simpa using hlag⟩))
        · intro u hu huv
          obtain ⟨hmem, hv, hmax⟩ := bestVoting_spec s.trackers t hb
          exact ⟨t, List.mem_append_right _ (List.mem_singleton_self _), hmem, hv, hmax⟩

/-- Witness for C6: on a concrete leader whose voting followers have match
indices 1 and 0, `stepdown` emits a replication send for the lagging
follower and `timeout_now` to follower 2 (the most up-to-date), and a
subsequent `add_entry` is refused. -/
theorem stepdown_contract_witness :
    (stepdown leaderState).2 =
      .ok [StepdownOutput.replicate 3, StepdownOutput.timeoutNow 2] ∧
    (addEntry (stepdown leaderState).1 7 .committed).2 = .error .notALeader := by
  have h := (stepdown_contract leaderState rfl).2 rfl
  exact ⟨rfl, h.2.1 7 .committed⟩

/-- Claim C8: when a `read_barrier()` call made in state `s` resolves (a
quorum acknowledged a round issued at-or-after the call and the resolution
condition holds in the later state `s2`), every entry committed at the
moment of the call has been applied to the local state machine — provided
the committed log prefix is stable, which the Log Matching invariant
guarantees (committed indices never change). -/
theorem read_barrier_observes_committed (s s2 : ServerState)
    (cap acks clusterSize : Nat) (e : LogEntry)
    (hcall : readBarrier s = (s, .ok cap))
    (hres : readBarrierResolves cap acks clusterSize s2 = true)
    (hstable : ∀ i, i < s.commitIndex → s2.log[i]? = s.log[i]?)
    (he : e ∈ committedEntries s) :
    e ∈ appliedEntries s2 := by
  have hcap : cap = s.commitIndex := by
    by_cases ha : s.aborted = true
    · simp [readBarrier, ha] at hcall
    · by_cases hl : s.role = .leader
      · simp [readBarrier, ha, hl] at hcall
        exact hcall.symm
      · simp [readBarrier, ha, hl] at hcall
  have happ : cap ≤ s2.lastApplied := by
    have := (Bool.and_eq_true _ _).mp hres
    exact of_decide_eq_true this.2
  obtain ⟨i, hi⟩ := List.mem_iff_getElem?.mp he
  rw [committedEntries, List.getElem?_take] at hi
  by_cases hlt : i < s.commitIndex
  · rw [if_pos hlt] at hi
    have hi2 : s2.log[i]? = some e := by rw [hstable i hlt, hi]
    have hia : i < s2.lastApplied := by omega
    apply List.mem_iff_getElem?.mpr
    exact ⟨i, by rw [appliedEntries, List.getElem?_take, if_pos hia, hi2]⟩
  · rw [if_neg hlt] at hi
    exact absurd hi (by simp)

/-- Witness for C8: on a concrete leader with one committed and applied
entry, a resolved read barrier lets the caller observe that entry. -/
theorem read_barrier_observes_committed_witness :
    (⟨2, 1, .dummy⟩ : LogEntry) ∈ appliedEntries leaderState :=
  read_barrier_observes_committed leaderState leaderState 1 1 1 ⟨2, 1, .dummy⟩
    rfl rfl (fun _ _ => rfl) (by decide)

/-- Initial leader of the C4 scenario: term 2, one committed dummy entry,
members 1, 2, 3. -/
def confTrace0 : ServerState where
  role := .leader
  currentTerm := 2
  log := [⟨2, 1, .dummy⟩]
  commitIndex := 1
  lastApplied := 1
  waiters := []
  currentConfig := [1, 2, 3]
  pendingCNew := none
  confPromise := none
  steppingDown := false
  aborted := false
  trackers := []

/-- C4 scenario after `set_configuration([1,2,3,4])`: the joint
configuration entry is appended at index 2 and the caller promise is
registered. -/
def confTrace1 : ServerState := (setConfiguration confTrace0 [1, 2, 3, 4]).1

/-- C4 scenario: the joint entry commits. -/
def confTrace2 : ServerState := advanceCommit confTrace1 2

/-- C4 scenario: the leader appends the C_new-only entry at index 3. -/
def confTrace3 : ServerState := appendCNewEntry confTrace2

/-- C4 scenario: the C_new entry commits — the change is durable. -/
def confTrace4 : ServerState := advanceCommit confTrace3 3

/-- C4 scenario: the trailing dummy entry is appended at index 4. -/
def confTrace5 : ServerState := appendConfDummy confTrace4

/-- C4 scenario: the leader steps down before the dummy commits. -/
def confTrace6 : ServerState := loseTrack confTrace5

/-- Claim C4: an execution in which `set_configuration` fails with
`commit_status_unknown` although the configuration change became durable.
The call is accepted; the C_new configuration entry commits at index 3
(it is durable and in force); the caller promise cannot resolve before
the trailing dummy at index 4 commits; the leader steps down with the
dummy uncommitted and the promise fails with `commit_status_unknown` —
had the dummy committed first, the promise would have resolved
successfully. -/
theorem set_configuration_unknown_despite_durable :
    (setConfiguration confTrace0 [1, 2, 3, 4]).2 = .ok () ∧
    confTrace4.log[2]? = some ⟨2, 3, .configuration [1, 2, 3, 4]⟩ ∧
    3 ≤ confTrace4.commitIndex ∧
    confTrace4.currentConfig = [1, 2, 3, 4] ∧
    confTrace5.confPromise = some .pending ∧
    resolveConfPromise confTrace5 4 = confTrace5 ∧
    confTrace6.commitIndex = 3 ∧
    confTrace6.log[2]? = some ⟨2, 3, .configuration [1, 2, 3, 4]⟩ ∧
    confTrace6.confPromise = some (.failed .commitStatusUnknown) ∧
    (resolveConfPromise (advanceCommit confTrace5 4) 4).confPromise =
      some .resolvedOk := by
  refine ⟨rfl, ?_⟩
  decide

end Raft
